import Mathlib

/-!
Verification development for the DeepTau grid scatter-fill model
(`src/models/deeptau_python/1/model.py`).

The Python model's `execute` method takes a list of inference requests.
For each request it
  * reads `input_tau`, the two feature arrays `input_inner_forconv` /
    `input_outer_forconv`, and the two index arrays `input_inner_pos` /
    `input_outer_pos`;
  * squeezes axes 2 and 1 of each feature array, splits off the last row
    as the zero-input sentinel, keeps the preceding rows as features;
  * tiles the sentinel into a grid of shape `N x 11 x 11 x F_in` (inner)
    and `N x 21 x 21 x F_out` (outer), where `N = input_tau.shape[0]`;
  * scatter-writes the feature rows into the grids at the coordinates
    given by the index arrays (numpy fancy-index assignment: sequential,
    last write wins, negative indices wrap, out-of-range raises);
  * casts each output to the datatype cached at model-load time and
    appends one response per request.

The embedding below models numpy values with an abstract element type
`al` (cast to `be` by the configured dtype conversions), numpy arrays as
shape-plus-flat-data (`NDArray`) for the raw 4-D inputs and as nested
lists for the output grids, and Python exceptions as `Except String`.
-/

set_option maxHeartbeats 1000000

namespace DeepTau

universe u v

variable {al : Type} {be : Type} {ga : Type}

/-- Read the element of a list at position `n`, with default `d` out of
range (the shallow counterpart of in-range numpy indexing; all reads the
claims need are in range). -/
def nthD : List al → Nat → al → al
  | [], _, d => d
  | a :: _, 0, _ => a
  | _ :: l, n + 1, d => nthD l n d

/-- Split a flat row-major buffer into `r` rows of `c` elements, the
inverse of flattening a 2-D numpy array. -/
def chunkRows : Nat → Nat → List al → List (List al)
  | 0, _, _ => []
  | r + 1, c, l => l.take c :: chunkRows r c (l.drop c)

/-- Shape-and-flat-data view of a numpy `ndarray`, used for the raw 4-D
feature inputs (`in_inner_forconv`, `in_outer_forconv`) whose two
singleton axes the model squeezes away (model.py lines 95-111). -/
structure NDArray (al : Type) where
  shape : List Nat
  data : List al

/-- Model of `np.squeeze(a, axis=k)`: fails when `k` is not an axis of
`a` (numpy `AxisError`) or when that axis does not have size one (numpy
`ValueError`); otherwise removes the axis, leaving the data untouched. -/
def npSqueeze (a : NDArray al) (k : Nat) : Except String (NDArray al) :=
  if k < a.shape.length then
    if nthD a.shape k 0 = 1 then
      .ok ⟨a.shape.take k ++ a.shape.drop (k + 1), a.data⟩
    else
      .error "ValueError: cannot select an axis to squeeze out which has size not equal to one"
  else
    .error "AxisError: axis 2 is out of bounds for array of dimension 2"

/-- View a 2-D array as its list of rows. The model only ever reaches
this point with the squeezed 2-D feature batch of the input contract; a
non-2-D shape (never produced by the claims' inputs) is rejected, as is
a buffer whose length breaks the `ndarray` size invariant. -/
def toRows (a : NDArray al) : Except String (List (List al)) :=
  match a.shape with
  | [r, c] => if a.data.length = r * c then .ok (chunkRows r c a.data) else .error "invalid ndarray: data does not match shape"
  | _ => .error "model: squeezed feature array is not 2-D"

/-- Feature preprocessing of model.py lines 95-111: squeeze axes 2 and 1,
then take the last row as the zero-input sentinel (`zeropad_inner` /
`zeropad_outer`) and all preceding rows as the per-window features
(numpy `a[-1]` and `a[:-1]`; `a[-1]` raises on an empty axis). -/
def processFeatures (a : NDArray al) : Except String (List al × List (List al)) :=
  match npSqueeze a 2 with
  | .error e => .error e
  | .ok b =>
    match npSqueeze b 1 with
    | .error e => .error e
    | .ok b2 =>
      match toRows b2 with
      | .error e => .error e
      | .ok [] => .error "IndexError: index -1 is out of bounds for axis 0 with size 0"
      | .ok (r0 :: rs) => .ok (nthD (r0 :: rs) rs.length [], (r0 :: rs).dropLast)

/-- Output grid of shape `N x G x G x F` as nested lists (object, row,
column, feature). -/
abbrev Grid (al : Type) := List (List (List (List al)))

/-- Model of `np.tile(sentinel[None,None,None,:], (N, G, G, 1))`
(model.py lines 118-119): every cell of the `N x G x G` grid holds the
sentinel vector. -/
def mkGrid (N G : Nat) (sent : List al) : Grid al :=
  List.replicate N (List.replicate G (List.replicate G sent))

/-- Read the feature vector stored at cell `(n, r, c)` of a grid. -/
def getCell (g : Grid al) (n r c : Nat) : List al :=
  nthD (nthD (nthD g n []) r []) c []

/-- Overwrite the feature vector at cell `(n, r, c)` of a grid (no-op
out of range; the scatter only produces in-range coordinates). -/
def setCell (g : Grid al) (n r c : Nat) (v : List al) : Grid al :=
  g.set n ((nthD g n []).set r ((nthD (nthD g n []) r []).set c v))

/-- Perform a list of cell writes in order, so that a later write to the
same cell overwrites an earlier one, exactly like numpy fancy-index
assignment with repeated indices. -/
def applyWrites (g : Grid al) : List ((Nat × Nat × Nat) × List al) → Grid al
  | [] => g
  | (idx, v) :: ws => applyWrites (setCell g idx.1 idx.2.1 idx.2.2 v) ws

/-- Resolve one integer index against an axis of size `bound` the way
numpy does: values in `[0, bound)` index directly, values in
`[-bound, 0)` wrap to the far end, anything else raises `IndexError`. -/
def normIdx (i : Int) (bound : Nat) : Except String Nat :=
  if 0 ≤ i ∧ i < (bound : Int) then .ok i.toNat
  else if -(bound : Int) ≤ i ∧ i < 0 then .ok (i + bound).toNat
  else .error "IndexError: index is out of bounds"

/-- Resolve a coordinate triple `(n, row, col)` from an index array
against bounds `N`, `G`, `G`. -/
def normTriple (N G : Nat) (p : Int × Int × Int) : Except String (Nat × Nat × Nat) :=
  match normIdx p.1 N with
  | .error e => .error e
  | .ok n =>
    match normIdx p.2.1 G with
    | .error e => .error e
    | .ok r =>
      match normIdx p.2.2 G with
      | .error e => .error e
      | .ok c => .ok (n, r, c)

/-- Sequential effectful map over a list, stopping at the first error —
the shape of every loop in the Python source. -/
def mapE (f : al → Except String be) : List al → Except String (List be)
  | [] => .ok []
  | x :: xs =>
    match f x with
    | .error e => .error e
    | .ok y =>
      match mapE f xs with
      | .error e => .error e
      | .ok ys => .ok (y :: ys)

/-- Scatter-fill of model.py lines 118-123 for one grid: tile the
sentinel into an `N x G x G` grid, then execute
`grid[tuple(pos.T)] = feats` — which requires the value rows to match
the index rows one-to-one, resolves every coordinate (raising on any
out-of-range one), and writes the rows sequentially so the last write
to a cell wins. -/
def scatterFill (sent : List al) (feats : List (List al)) (pos : List (Int × Int × Int))
    (N G : Nat) : Except String (Grid al) :=
  if feats.length = pos.length then
    match mapE (normTriple N G) pos with
    | .error e => .error e
    | .ok idxs => .ok (applyWrites (mkGrid N G sent) (idxs.zip feats))
  else
    .error "ValueError: shape mismatch between index result and assigned values"

/-- Cast every feature value of a grid to the output datatype, the
model of `grid.astype(dtype)` (model.py lines 130-132). -/
def castGrid (f : al → be) (g : Grid al) : Grid be :=
  g.map fun plane => plane.map fun row => row.map fun cell => cell.map f

/-- State cached by the model at load time: the three declared output
datatypes, modelled as value conversions (model.py lines 50-55). -/
structure Config (al be : Type) where
  output_tau_dtype : al → be
  output_inner_dtype : al → be
  output_outer_dtype : al → be

/-- Named input tensors of one inference request (model.py lines
86-90): the score array, the two raw 4-D feature arrays, and the two
index arrays of coordinate triples. -/
structure Request (al : Type) where
  in_tau : List al
  in_inner_forconv : NDArray al
  in_outer_forconv : NDArray al
  in_inner_pos : List (Int × Int × Int)
  in_outer_pos : List (Int × Int × Int)

/-- The three named output tensors of one inference response (model.py
lines 127-142). -/
structure Response (be : Type) where
  output_tau : List be
  output_inner : Grid be
  output_outer : Grid be

/-- Body of the per-request loop of `execute` (model.py lines 84-143):
preprocess both feature arrays, scatter-fill both grids with
`ntaus = in_tau.shape[0]`, cast each output to its configured datatype,
and build the response. Any uncaught numpy error aborts the whole call. -/
def execute1 (cfg : Config al be) (req : Request al) : Except String (Response be) :=
  match processFeatures req.in_inner_forconv with
  | .error e => .error e
  | .ok pin =>
    match processFeatures req.in_outer_forconv with
    | .error e => .error e
    | .ok pout =>
      match scatterFill pin.1 pin.2 req.in_inner_pos req.in_tau.length 11 with
      | .error e => .error e
      | .ok gi =>
        match scatterFill pout.1 pout.2 req.in_outer_pos req.in_tau.length 21 with
        | .error e => .error e
        | .ok go =>
          .ok ⟨req.in_tau.map cfg.output_tau_dtype,
               castGrid cfg.output_inner_dtype gi,
               castGrid cfg.output_outer_dtype go⟩

/-- The `execute` entry point (model.py lines 57-147): process the
requests in order, accumulating one response per request; an uncaught
exception anywhere discards all responses, including those of requests
already processed. -/
def execute (cfg : Config al be) (reqs : List (Request al)) : Except String (List (Response be)) :=
  mapE (execute1 cfg) reqs

/-- The `execute` method with the model object's cached state threaded
explicitly: the Python body only reads the three dtype attributes
(model.py lines 76-78) and never assigns any attribute, so the state
returned to the caller is the state it received. -/
def executeS (s : Config al be) (reqs : List (Request al)) :
    Config al be × Except String (List (Response be)) :=
  (s, execute s reqs)

/-- Validity of an index array in the sense of the input contract
(spec section 4): every coordinate triple is non-negative and in range
for an `N x G x G` grid. -/
def validPos (pos : List (Int × Int × Int)) (N G : Nat) : Prop :=
  ∀ p ∈ pos, 0 ≤ p.1 ∧ p.1 < (N : Int) ∧ 0 ≤ p.2.1 ∧ p.2.1 < (G : Int)
    ∧ 0 ≤ p.2.2 ∧ p.2.2 < (G : Int)

/-- Coordinate triples numpy accepts without raising: each component
may also be negative down to minus its bound, in which case it wraps. -/
def inRange (p : Int × Int × Int) (N G : Nat) : Prop :=
  -(N : Int) ≤ p.1 ∧ p.1 < (N : Int) ∧ -(G : Int) ≤ p.2.1 ∧ p.2.1 < (G : Int)
    ∧ -(G : Int) ≤ p.2.2 ∧ p.2.2 < (G : Int)

instance validPosDecidable (pos : List (Int × Int × Int)) (N G : Nat) :
    Decidable (validPos pos N G) := by
  unfold validPos
  infer_instance

instance inRangeDecidable (p : Int × Int × Int) (N G : Nat) :
    Decidable (inRange p N G) := by
  unfold inRange
  infer_instance

/-- The cell a single possibly-negative numpy index resolves to:
non-negative values index directly, negative ones land at
`bound + i`. -/
def wrapIdx (i : Int) (bound : Nat) : Nat :=
  if i < 0 then (i + bound).toNat else i.toNat

/-- Componentwise `wrapIdx` on a coordinate triple. -/
def wrapT (N G : Nat) (p : Int × Int × Int) : Nat × Nat × Nat :=
  (wrapIdx p.1 N, wrapIdx p.2.1 G, wrapIdx p.2.2 G)

/-- Dimension skeleton of a grid: `N` objects, `G1` rows of `G2`
cells each. -/
def gridDims (g : Grid al) (N G1 G2 : Nat) : Prop :=
  g.length = N ∧ (∀ n, n < N → (nthD g n []).length = G1)
    ∧ (∀ n, n < N → ∀ r, r < G1 → (nthD (nthD g n []) r []).length = G2)

/-- Full shape of a grid: dimension skeleton plus a uniform feature
vector length `F` in every cell. -/
def gridShape (g : Grid al) (N G1 G2 F : Nat) : Prop :=
  gridDims g N G1 G2
    ∧ ∀ n, n < N → ∀ r, r < G1 → ∀ c, c < G2 → (getCell g n r c).length = F

/-- Feature-vector length declared by a raw 4-D feature input: the
size of its last axis. -/
def featDim (a : NDArray al) : Nat :=
  nthD a.shape 3 0

/-- Whether an `Except` computation succeeded. -/
def isOkE : Except String al → Bool
  | .ok _ => true
  | .error _ => false

/-! ### Concrete data for witnesses and counterexamples -/

/-- Concrete dtype configuration: three distinct nontrivial casts, so
that the cast step is visible in the outputs. -/
def cfgW : Config Int Int := ⟨fun x => x + 1, fun x => x + 2, fun x => x + 3⟩

/-- Request realizing the spec's first concrete scenario: one object,
inner sentinel `[9, 9]`, one inner window `[1, 2]` at `(0, 3, 4)`, and a
trivial outer part (sentinel `[5]`, no windows). -/
def reqW1 : Request Int :=
  { in_tau := [7]
  , in_inner_forconv := ⟨[2, 1, 1, 2], [1, 2, 9, 9]⟩
  , in_outer_forconv := ⟨[1, 1, 1, 1], [5]⟩
  , in_inner_pos := [(0, 3, 4)]
  , in_outer_pos := [] }

/-- Response produced for `reqW1`. -/
def respW1 : Response Int :=
  { output_tau := [8]
  , output_inner := castGrid cfgW.output_inner_dtype
      (applyWrites (mkGrid 1 11 [9, 9]) [((0, 3, 4), [1, 2])])
  , output_outer := castGrid cfgW.output_outer_dtype (mkGrid 1 21 [5]) }

/-- Request realizing the spec's duplicate-index scenario: two inner
windows `[1, 1]` and `[2, 2]`, both addressed to cell `(0, 0, 0)`. -/
def reqW3 : Request Int :=
  { in_tau := [7]
  , in_inner_forconv := ⟨[3, 1, 1, 2], [1, 1, 2, 2, 9, 9]⟩
  , in_outer_forconv := ⟨[1, 1, 1, 1], [5]⟩
  , in_inner_pos := [(0, 0, 0), (0, 0, 0)]
  , in_outer_pos := [] }

/-- Response produced for `reqW3`. -/
def respW3 : Response Int :=
  { output_tau := [8]
  , output_inner := castGrid cfgW.output_inner_dtype
      (applyWrites (mkGrid 1 11 [9, 9]) [((0, 0, 0), [1, 1]), ((0, 0, 0), [2, 2])])
  , output_outer := castGrid cfgW.output_outer_dtype (mkGrid 1 21 [5]) }

/-- Request with two objects and no windows at all. -/
def reqW10 : Request Int :=
  { in_tau := [3, 4]
  , in_inner_forconv := ⟨[1, 1, 1, 2], [9, 9]⟩
  , in_outer_forconv := ⟨[1, 1, 1, 1], [5]⟩
  , in_inner_pos := []
  , in_outer_pos := [] }

/-- Response produced for `reqW10`. -/
def respW10 : Response Int :=
  { output_tau := [4, 5]
  , output_inner := castGrid cfgW.output_inner_dtype (mkGrid 2 11 [9, 9])
  , output_outer := castGrid cfgW.output_outer_dtype (mkGrid 2 21 [5]) }

/-- Two-request batch made of the two valid requests above. -/
def reqsW : List (Request Int) := [reqW1, reqW10]

/-- Responses produced for `reqsW`. -/
def respsW : List (Response Int) := [respW1, respW10]

/-- Request whose inner index array holds a row coordinate `11`, one
past the inner-grid bound. -/
def reqW7 : Request Int :=
  { in_tau := [7]
  , in_inner_forconv := ⟨[2, 1, 1, 2], [1, 2, 9, 9]⟩
  , in_outer_forconv := ⟨[1, 1, 1, 1], [5]⟩
  , in_inner_pos := [(0, 11, 0)]
  , in_outer_pos := [] }

/-- Request with negative index coordinates, all within wrapping range:
inner entry `(-1, -3, 4)` and outer entry `(0, -21, 20)`. -/
def reqW8 : Request Int :=
  { in_tau := [7]
  , in_inner_forconv := ⟨[2, 1, 1, 2], [1, 2, 9, 9]⟩
  , in_outer_forconv := ⟨[2, 1, 1, 1], [4, 5]⟩
  , in_inner_pos := [(-1, -3, 4)]
  , in_outer_pos := [(0, -21, 20)] }

/-- Request whose feature inputs are genuinely 2-D arrays of the shape
`(M+1) x F` that the spec's input contract states literally. -/
def reqW6bad : Request Int :=
  { in_tau := [7]
  , in_inner_forconv := ⟨[2, 2], [1, 2, 3, 4]⟩
  , in_outer_forconv := ⟨[2, 2], [1, 2, 3, 4]⟩
  , in_inner_pos := [(0, 0, 0)]
  , in_outer_pos := [(0, 0, 0)] }

/-! ### Basic lemmas about `nthD`, `List.set` and `chunkRows` -/

theorem nthD_eq_getElem {l : List al} {n : Nat} (h : n < l.length) (d : al) :
    nthD l n d = l[n] := by
  induction l generalizing n with
  | nil => simp at h
  | cons x xs ih =>
    cases n with
    | zero => rfl
    | succ n => simpa using ih (by simpa using h)

theorem nthD_of_length_le {l : List al} {n : Nat} (h : l.length ≤ n) (d : al) :
    nthD l n d = d := by
  induction l generalizing n with
  | nil => rfl
  | cons x xs ih =>
    cases n with
    | zero => simp at h
    | succ n => exact ih (by simpa using h)

theorem set_of_length_le {l : List al} {n : Nat} (h : l.length ≤ n) (a : al) :
    l.set n a = l := by
  induction l generalizing n with
  | nil => rfl
  | cons x xs ih =>
    cases n with
    | zero => simp at h
    | succ n => simpa [List.set] using ih (by simpa using h)

theorem nthD_set_eq {l : List al} {n : Nat} (h : n < l.length) (a d : al) :
    nthD (l.set n a) n d = a := by
  induction l generalizing n with
  | nil => simp at h
  | cons x xs ih =>
    cases n with
    | zero => rfl
    | succ n => exact ih (by simpa using h)

theorem nthD_set_ne {l : List al} {n m : Nat} (h : n ≠ m) (a d : al) :
    nthD (l.set n a) m d = nthD l m d := by
  induction l generalizing n m with
  | nil => rfl
  | cons x xs ih =>
    cases n with
    | zero =>
      cases m with
      | zero => exact absurd rfl h
      | succ m => rfl
    | succ n =>
      cases m with
      | zero => rfl
      | succ m => exact ih (fun hh => h (congrArg Nat.succ hh))

theorem nthD_replicate {N n : Nat} (h : n < N) (x d : al) :
    nthD (List.replicate N x) n d = x := by
  induction N generalizing n with
  | zero => simp at h
  | succ N ih =>
    cases n with
    | zero => rfl
    | succ n => exact ih (Nat.lt_of_succ_lt_succ h)

theorem nthD_map {f : al → be} {l : List al} {n : Nat} {d : al} {d' : be}
    (hd : f d = d') : nthD (l.map f) n d' = f (nthD l n d) := by
  induction l generalizing n with
  | nil => simpa using hd.symm
  | cons x xs ih =>
    cases n with
    | zero => rfl
    | succ n => exact ih

theorem chunkRows_length (r c : Nat) (l : List al) :
    (chunkRows r c l : List (List al)).length = r := by
  induction r generalizing l with
  | zero => rfl
  | succ r ih => simpa [chunkRows] using ih (l.drop c)

theorem nthD_chunkRows {r c i : Nat} (hi : i < r) (l : List al) :
    nthD (chunkRows r c l) i [] = (l.drop (i * c)).take c := by
  induction r generalizing i l with
  | zero => simp at hi
  | succ r ih =>
    cases i with
    | zero => simp [chunkRows, nthD]
    | succ i =>
      have : nthD (chunkRows (r + 1) c l) (i + 1) [] = nthD (chunkRows r c (l.drop c)) i [] := rfl
      rw [this, ih (Nat.lt_of_succ_lt_succ hi) (l.drop c), List.drop_drop]
      ring_nf

theorem chunkRows_dropLast (m c : Nat) (l : List al) :
    (chunkRows (m + 1) c l).dropLast = chunkRows m c l := by
  induction m generalizing l with
  | zero => rfl
  | succ m ih =>
    have h1 : chunkRows (m + 1 + 1) c l
        = l.take c :: chunkRows (m + 1) c (l.drop c) := rfl
    have h2 : chunkRows (m + 1) c (l.drop c)
        = (l.drop c).take c :: chunkRows m c ((l.drop c).drop c) := rfl
    rw [h1, h2, List.dropLast_cons₂, ← h2, ih (l.drop c)]
    rfl

theorem chunkRows_row_length {r c i : Nat} (hi : i < r) {l : List al}
    (hl : r * c ≤ l.length) : (nthD (chunkRows r c l) i []).length = c := by
  rw [nthD_chunkRows hi l]
  have h1 : (i + 1) * c ≤ r * c := Nat.mul_le_mul_right c hi
  have h2 : (i + 1) * c = i * c + c := by ring
  simp only [List.length_take, List.length_drop]
  omega

theorem chunkRows_mem_length {r c : Nat} {l : List al}
    (hl : r * c ≤ l.length) {row : List al} (hrow : row ∈ chunkRows r c l) :
    row.length = c := by
  obtain ⟨i, hi, hget⟩ := List.mem_iff_getElem.1 hrow
  have hir : i < r := by simpa [chunkRows_length] using hi
  rw [← hget, ← nthD_eq_getElem hi []]
  exact chunkRows_row_length hir hl

/-! ### Reading cells after writes -/

theorem getCell_setCell_ne {g : Grid al} {n r c n' r' c' : Nat} (v : List al)
    (h : ¬(n = n' ∧ r = r' ∧ c = c')) :
    getCell (setCell g n r c v) n' r' c' = getCell g n' r' c' := by
  unfold getCell setCell
  by_cases hn : n = n'
  · subst hn
    by_cases hg : n < g.length
    · rw [nthD_set_eq hg]
      by_cases hr : r = r'
      · subst hr
        by_cases hp : r < (nthD g n []).length
        · rw [nthD_set_eq hp]
          exact nthD_set_ne (fun hc => h ⟨rfl, rfl, hc⟩) v []
        · rw [set_of_length_le (Nat.le_of_not_lt hp)]
      · rw [nthD_set_ne hr]
    · rw [set_of_length_le (Nat.le_of_not_lt hg)]
  · rw [nthD_set_ne hn]

theorem getCell_setCell_eq {g : Grid al} {n r c : Nat} (v : List al)
    (hn : n < g.length) (hr : r < (nthD g n []).length)
    (hc : c < (nthD (nthD g n []) r []).length) :
    getCell (setCell g n r c v) n r c = v := by
  unfold getCell setCell
  rw [nthD_set_eq hn, nthD_set_eq hr, nthD_set_eq hc]

theorem setCell_gridDims {g : Grid al} {N G1 G2 : Nat} (hg : gridDims g N G1 G2)
    (n r c : Nat) (v : List al) : gridDims (setCell g n r c v) N G1 G2 := by
  obtain ⟨h0, h1, h2⟩ := hg
  refine ⟨by simpa [setCell] using h0, ?_, ?_⟩
  · intro m hm
    by_cases hmn : n = m
    · subst hmn
      by_cases hb : n < g.length
      · rw [show setCell g n r c v
              = g.set n ((nthD g n []).set r ((nthD (nthD g n []) r []).set c v)) from rfl,
            nthD_set_eq hb]
        simpa using h1 n hm
      · rw [setCell, set_of_length_le (Nat.le_of_not_lt hb)]
        exact h1 n hm
    · rw [setCell, nthD_set_ne hmn]
      exact h1 m hm
  · intro m hm s hs
    by_cases hmn : n = m
    · subst hmn
      by_cases hb : n < g.length
      · rw [setCell, nthD_set_eq hb]
        by_cases hrs : r = s
        · subst hrs
          by_cases hb2 : r < (nthD g n []).length
          · rw [nthD_set_eq hb2]
            simpa using h2 n hm r hs
          · rw [set_of_length_le (Nat.le_of_not_lt hb2)]
            exact h2 n hm r hs
        · rw [nthD_set_ne hrs]
          exact h2 n hm s hs
      · rw [setCell, set_of_length_le (Nat.le_of_not_lt hb)]
        exact h2 n hm s hs
    · rw [setCell, nthD_set_ne hmn]
      exact h2 m hm s hs

theorem applyWrites_gridDims {N G1 G2 : Nat}
    (ws : List ((Nat × Nat × Nat) × List al)) {g : Grid al}
    (hg : gridDims g N G1 G2) : gridDims (applyWrites g ws) N G1 G2 := by
  induction ws generalizing g with
  | nil => exact hg
  | cons w ws ih => exact ih (setCell_gridDims hg w.1.1 w.1.2.1 w.1.2.2 w.2)

theorem applyWrites_append (g : Grid al)
    (ws₁ ws₂ : List ((Nat × Nat × Nat) × List al)) :
    applyWrites g (ws₁ ++ ws₂) = applyWrites (applyWrites g ws₁) ws₂ := by
  induction ws₁ generalizing g with
  | nil => rfl
  | cons w ws ih => exact ih (setCell g w.1.1 w.1.2.1 w.1.2.2 w.2)

theorem getCell_applyWrites_notin {n r c : Nat}
    {ws : List ((Nat × Nat × Nat) × List al)} (h : ∀ w ∈ ws, w.1 ≠ (n, r, c))
    (g : Grid al) : getCell (applyWrites g ws) n r c = getCell g n r c := by
  induction ws generalizing g with
  | nil => rfl
  | cons w ws ih =>
    have hw : ¬(w.1.1 = n ∧ w.1.2.1 = r ∧ w.1.2.2 = c) := by
      intro hh
      apply h w (List.mem_cons_self w ws)
      have hsplit : w.1 = (w.1.1, w.1.2.1, w.1.2.2) := rfl
      rw [hsplit, hh.1, hh.2.1, hh.2.2]
    calc getCell (applyWrites (setCell g w.1.1 w.1.2.1 w.1.2.2 w.2) ws) n r c
        = getCell (setCell g w.1.1 w.1.2.1 w.1.2.2 w.2) n r c :=
          ih (fun w' hw' => h w' (List.mem_cons_of_mem w hw')) _
      _ = getCell g n r c := getCell_setCell_ne w.2 hw

theorem mkGrid_gridDims (N G : Nat) (sent : List al) :
    gridDims (mkGrid N G sent : Grid al) N G G := by
  refine ⟨by simp [mkGrid], ?_, ?_⟩
  · intro n hn
    rw [mkGrid, nthD_replicate hn]
    simp
  · intro n hn r hr
    rw [mkGrid, nthD_replicate hn, nthD_replicate hr]
    simp

theorem getCell_mkGrid {N G n r c : Nat} (hn : n < N) (hr : r < G) (hc : c < G)
    (sent : List al) : getCell (mkGrid N G sent) n r c = sent := by
  rw [getCell, mkGrid, nthD_replicate hn, nthD_replicate hr, nthD_replicate hc]

theorem getCell_applyWrites_last {g : Grid al} {N G1 G2 : Nat}
    (hg : gridDims g N G1 G2) {n r c : Nat} (hn : n < N) (hr : r < G1)
    (hc : c < G2) (ws₁ ws₂ : List ((Nat × Nat × Nat) × List al)) (v : List al)
    (h2 : ∀ w ∈ ws₂, w.1 ≠ (n, r, c)) :
    getCell (applyWrites g (ws₁ ++ ((n, r, c), v) :: ws₂)) n r c = v := by
  rw [applyWrites_append,
      show applyWrites (applyWrites g ws₁) (((n, r, c), v) :: ws₂)
        = applyWrites (setCell (applyWrites g ws₁) n r c v) ws₂ from rfl,
      getCell_applyWrites_notin h2]
  obtain ⟨d0, d1, d2⟩ := applyWrites_gridDims ws₁ hg
  exact getCell_setCell_eq v (by rw [d0]; exact hn)
    (by rw [d1 n hn]; exact hr) (by rw [d2 n hn r hr]; exact hc)

/-! ### Lemmas about `mapE` and index normalization -/

theorem mapE_ok_length {f : al → Except String be} {l : List al} {out : List be}
    (h : mapE f l = .ok out) : out.length = l.length := by
  induction l generalizing out with
  | nil =>
    simp only [mapE] at h
    cases h
    rfl
  | cons x xs ih =>
    simp only [mapE] at h
    cases hx : f x with
    | error e => rw [hx] at h; exact absurd h (by simp)
    | ok y =>
      rw [hx] at h
      cases hxs : mapE f xs with
      | error e => rw [hxs] at h; exact absurd h (by simp)
      | ok ys =>
        rw [hxs] at h
        cases h
        simpa using ih hxs

theorem mapE_eq_map {f : al → Except String be} {m : al → be} {l : List al}
    (h : ∀ x ∈ l, f x = .ok (m x)) : mapE f l = .ok (l.map m) := by
  induction l with
  | nil => rfl
  | cons x xs ih =>
    rw [mapE, h x (List.mem_cons_self x xs), ih (fun y hy => h y (List.mem_cons_of_mem x hy))]
    rfl

theorem mapE_error_of_mem {f : al → Except String be} {l : List al} {x : al}
    (hx : x ∈ l) (he : ∃ e, f x = .error e) : ∃ e, mapE f l = .error e := by
  induction l with
  | nil => cases hx
  | cons y ys ih =>
    cases hy : f y with
    | error e => exact ⟨e, by rw [mapE, hy]⟩
    | ok v =>
      have hxy : x ∈ ys := by
        rcases List.mem_cons.1 hx with h | h
        · subst h
          obtain ⟨e, he⟩ := he
          rw [hy] at he
          cases he
        · exact h
      obtain ⟨e, hrec⟩ := ih hxy
      exact ⟨e, by rw [mapE, hy, hrec]⟩

theorem mapE_ok_get {f : al → Except String be} {l : List al} {out : List be}
    (h : mapE f l = .ok out) {i : Nat} (hi : i < l.length) (hi' : i < out.length) :
    f l[i] = .ok out[i] := by
  induction l generalizing out i with
  | nil => simp at hi
  | cons x xs ih =>
    simp only [mapE] at h
    cases hx : f x with
    | error e => rw [hx] at h; exact absurd h (by simp)
    | ok y =>
      rw [hx] at h
      cases hxs : mapE f xs with
      | error e => rw [hxs] at h; exact absurd h (by simp)
      | ok ys =>
        rw [hxs] at h
        cases h
        cases i with
        | zero => simpa using hx
        | succ i =>
          simpa using ih hxs (by simpa using hi) (by simpa using hi')

theorem normIdx_ok_of_inRange {i : Int} {bound : Nat}
    (h1 : -(bound : Int) ≤ i) (h2 : i < (bound : Int)) :
    normIdx i bound = .ok (wrapIdx i bound) := by
  by_cases hneg : i < 0
  · rw [normIdx, if_neg (by omega), if_pos ⟨h1, hneg⟩, wrapIdx, if_pos hneg]
  · rw [normIdx, if_pos ⟨by omega, h2⟩, wrapIdx, if_neg hneg]

theorem normTriple_ok_of_inRange {p : Int × Int × Int} {N G : Nat}
    (h : inRange p N G) : normTriple N G p = .ok (wrapT N G p) := by
  obtain ⟨h1, h2, h3, h4, h5, h6⟩ := h
  rw [normTriple, normIdx_ok_of_inRange h1 h2, normIdx_ok_of_inRange h3 h4,
      normIdx_ok_of_inRange h5 h6]
  rfl

theorem wrapIdx_lt {i : Int} {bound : Nat} (h1 : -(bound : Int) ≤ i)
    (h2 : i < (bound : Int)) : wrapIdx i bound < bound := by
  rw [wrapIdx]
  by_cases hneg : i < 0
  · rw [if_pos hneg]; omega
  · rw [if_neg hneg]; omega

theorem wrapT_lt {p : Int × Int × Int} {N G : Nat} (h : inRange p N G) :
    (wrapT N G p).1 < N ∧ (wrapT N G p).2.1 < G ∧ (wrapT N G p).2.2 < G := by
  obtain ⟨h1, h2, h3, h4, h5, h6⟩ := h
  exact ⟨wrapIdx_lt h1 h2, wrapIdx_lt h3 h4, wrapIdx_lt h5 h6⟩

theorem inRange_of_validPos {pos : List (Int × Int × Int)} {N G : Nat}
    (h : validPos pos N G) {p : Int × Int × Int} (hp : p ∈ pos) :
    inRange p N G := by
  obtain ⟨h1, h2, h3, h4, h5, h6⟩ := h p hp
  exact ⟨by omega, h2, by omega, h4, by omega, h6⟩

theorem wrapT_of_nonneg {p : Int × Int × Int} {N G : Nat} (h1 : 0 ≤ p.1)
    (h2 : 0 ≤ p.2.1) (h3 : 0 ≤ p.2.2) :
    wrapT N G p = (p.1.toNat, p.2.1.toNat, p.2.2.toNat) := by
  rw [wrapT, wrapIdx, wrapIdx, wrapIdx, if_neg (by omega), if_neg (by omega),
      if_neg (by omega)]

theorem wrapT_inj_of_nonneg {p q : Int × Int × Int} {N G : Nat} (hp1 : 0 ≤ p.1)
    (hp2 : 0 ≤ p.2.1) (hp3 : 0 ≤ p.2.2) (hq1 : 0 ≤ q.1) (hq2 : 0 ≤ q.2.1)
    (hq3 : 0 ≤ q.2.2) (h : wrapT N G p = wrapT N G q) : p = q := by
  rw [wrapT_of_nonneg hp1 hp2 hp3, wrapT_of_nonneg hq1 hq2 hq3] at h
  have e1 : p.1.toNat = q.1.toNat := congrArg Prod.fst h
  have e2 : p.2.1.toNat = q.2.1.toNat := congrArg (fun t => t.2.1) h
  have e3 : p.2.2.toNat = q.2.2.toNat := congrArg (fun t => t.2.2) h
  have g1 : p.1 = q.1 := by omega
  have g2 : p.2.1 = q.2.1 := by omega
  have g3 : p.2.2 = q.2.2 := by omega
  obtain ⟨a, b, c⟩ := p
  obtain ⟨d, e, f⟩ := q
  simp only at g1 g2 g3
  simp [g1, g2, g3]

/-! ### Inversion and computation lemmas for the pipeline stages -/

theorem npSqueeze_ok_inv {a b : NDArray al} {k : Nat} (h : npSqueeze a k = .ok b) :
    k < a.shape.length ∧ nthD a.shape k 0 = 1 ∧
      b.shape = a.shape.take k ++ a.shape.drop (k + 1) ∧ b.data = a.data := by
  by_cases c1 : k < a.shape.length
  · by_cases c2 : nthD a.shape k 0 = 1
    · rw [npSqueeze, if_pos c1, if_pos c2] at h
      cases h
      exact ⟨c1, c2, rfl, rfl⟩
    · rw [npSqueeze, if_pos c1, if_neg c2] at h
      cases h
  · rw [npSqueeze, if_neg c1] at h
    cases h

theorem toRows_ok_inv {a : NDArray al} {rows : List (List al)}
    (h : toRows a = .ok rows) :
    ∃ r c, a.shape = [r, c] ∧ a.data.length = r * c ∧ rows = chunkRows r c a.data := by
  rw [toRows] at h
  split at h
  · rename_i r c heq
    split at h
    · rename_i hlen
      cases h
      exact ⟨r, c, heq, hlen, rfl⟩
    · cases h
  · cases h

theorem processFeatures_eq {a : NDArray al} {M F : Nat}
    (hs : a.shape = [M + 1, 1, 1, F]) (hd : a.data.length = (M + 1) * F) :
    processFeatures a = .ok ((a.data.drop (M * F)).take F, chunkRows M F a.data) := by
  have h2 : npSqueeze a 2 = .ok ⟨[M + 1, 1, F], a.data⟩ := by
    rw [npSqueeze, hs]
    norm_num [nthD]
  have h1 : npSqueeze (⟨[M + 1, 1, F], a.data⟩ : NDArray al) 1
      = .ok ⟨[M + 1, F], a.data⟩ := by
    rw [npSqueeze]
    norm_num [nthD]
  have h0 : toRows (⟨[M + 1, F], a.data⟩ : NDArray al)
      = .ok (chunkRows (M + 1) F a.data) := by
    rw [toRows]
    simp [hd]
  have hrows : chunkRows (M + 1) F a.data
      = a.data.take F :: chunkRows M F (a.data.drop F) := rfl
  simp only [processFeatures, h2, h1, h0, hrows]
  rw [chunkRows_length, ← hrows, nthD_chunkRows (Nat.lt_succ_self M),
      chunkRows_dropLast]

theorem processFeatures_ok_inv {a : NDArray al} {sent : List al}
    {feats : List (List al)} (h : processFeatures a = .ok (sent, feats)) :
    ∃ M F, a.shape = [M + 1, 1, 1, F] ∧ a.data.length = (M + 1) * F ∧
      sent = (a.data.drop (M * F)).take F ∧ feats = chunkRows M F a.data := by
  rw [processFeatures] at h
  split at h
  · cases h
  · rename_i b hb
    split at h
    · cases h
    · rename_i b2 hb2
      split at h
      · cases h
      · cases h
      · rename_i r0 rs hrows
        cases h
        obtain ⟨k2, e2, bsh, bda⟩ := npSqueeze_ok_inv hb
        obtain ⟨k1, e1, b2sh, b2da⟩ := npSqueeze_ok_inv hb2
        obtain ⟨r, c, hsh2, hlen2, hchunk⟩ := toRows_ok_inv hrows
        obtain ⟨sh, da⟩ := a
        simp only at k2 e2 bsh bda hlen2 hchunk ⊢
        rcases sh with _ | ⟨s0, sh⟩
        · simp at k2
        rcases sh with _ | ⟨s1, sh⟩
        · simp at k2
        rcases sh with _ | ⟨s2, sh⟩
        · simp at k2
        have hs2 : s2 = 1 := by simpa [nthD] using e2
        have hbsh : b.shape = s0 :: s1 :: sh := by
          simpa using bsh
        have hs1 : s1 = 1 := by
          rw [hbsh] at e1
          simpa [nthD] using e1
        have hb2sh : b2.shape = s0 :: sh := by
          rw [b2sh, hbsh]
          rfl
        rw [hb2sh] at hsh2
        have hs0 : s0 = r := (List.cons.injEq .. ▸ hsh2).1
        have hsh' : sh = [c] := (List.cons.injEq .. ▸ hsh2).2
        have hdata : b2.data = da := by rw [b2da, bda]
        rw [hdata] at hlen2 hchunk
        rcases r with _ | M
        · rw [show chunkRows 0 c da = [] from rfl] at hchunk
          cases hchunk
        · refine ⟨M, c, by rw [hs0, hs1, hs2, hsh'], hlen2, ?_, ?_⟩
          · have hlast : nthD (r0 :: rs) rs.length [] = (da.drop (M * c)).take c := by
              have hlenrs : rs.length = M := by
                have := congrArg List.length hchunk
                simp only [List.length_cons, chunkRows_length] at this
                omega
              rw [hlenrs, hchunk, nthD_chunkRows (Nat.lt_succ_self M)]
            exact hlast.symm ▸ rfl
          · rw [hchunk, chunkRows_dropLast]

theorem processFeatures_ok_facts {a : NDArray al} {sent : List al}
    {feats : List (List al)} (h : processFeatures a = .ok (sent, feats)) :
    ∃ M F, a.shape = [M + 1, 1, 1, F] ∧ a.data.length = (M + 1) * F ∧
      sent.length = F ∧ feats.length = M ∧ (∀ row ∈ feats, row.length = F) ∧
      featDim a = F := by
  obtain ⟨M, F, hs, hd, hsent, hfeats⟩ := processFeatures_ok_inv h
  have hle : M * F ≤ a.data.length := by
    have hmul : M * F ≤ (M + 1) * F := Nat.mul_le_mul_right F (Nat.le_succ M)
    omega
  refine ⟨M, F, hs, hd, ?_, ?_, ?_, ?_⟩
  · rw [hsent]
    have hexp : (M + 1) * F = M * F + F := by ring
    simp only [List.length_take, List.length_drop, hd, hexp]
    omega
  · rw [hfeats, chunkRows_length]
  · intro row hrow
    rw [hfeats] at hrow
    exact chunkRows_mem_length hle hrow
  · rw [featDim, hs]
    rfl

theorem scatterFill_ok_inv {sent : List al} {feats : List (List al)}
    {pos : List (Int × Int × Int)} {N G : Nat} {g : Grid al}
    (h : scatterFill sent feats pos N G = .ok g) :
    feats.length = pos.length ∧ ∃ idxs, mapE (normTriple N G) pos = .ok idxs ∧
      g = applyWrites (mkGrid N G sent) (idxs.zip feats) := by
  rw [scatterFill] at h
  split at h
  · rename_i hlen
    split at h
    · cases h
    · rename_i idxs hidx
      cases h
      exact ⟨hlen, idxs, hidx, rfl⟩
  · cases h

theorem scatterFill_ok_of (sent : List al) (feats : List (List al))
    (pos : List (Int × Int × Int)) (N G : Nat)
    (hlen : feats.length = pos.length) (hr : ∀ p ∈ pos, inRange p N G) :
    scatterFill sent feats pos N G
      = .ok (applyWrites (mkGrid N G sent) ((pos.map (wrapT N G)).zip feats)) := by
  have hm : mapE (normTriple N G) pos = .ok (pos.map (wrapT N G)) :=
    mapE_eq_map (fun p hp => normTriple_ok_of_inRange (hr p hp))
  simp only [scatterFill, if_pos hlen, hm]

theorem scatterFill_getCell_sentinel {sent : List al} {feats : List (List al)}
    {pos : List (Int × Int × Int)} {N G : Nat} {g : Grid al}
    (h : scatterFill sent feats pos N G = .ok g) (hv : validPos pos N G)
    {n r c : Nat} (hn : n < N) (hrG : r < G) (hcG : c < G)
    (hnot : ∀ p ∈ pos, p ≠ ((n : Int), (r : Int), (c : Int))) :
    getCell g n r c = sent := by
  obtain ⟨hlen, idxs, hidx, hg⟩ := scatterFill_ok_inv h
  have hm : mapE (normTriple N G) pos = .ok (pos.map (wrapT N G)) :=
    mapE_eq_map (fun p hp => normTriple_ok_of_inRange (inRange_of_validPos hv hp))
  injection hidx.symm.trans hm with hidxs
  rw [hidxs] at hg
  rw [hg, getCell_applyWrites_notin ?hcond, getCell_mkGrid hn hrG hcG]
  case hcond =>
    rintro ⟨widx, wval⟩ hw
    obtain ⟨hw1, hw2⟩ := List.of_mem_zip hw
    obtain ⟨p, hp, hwp⟩ := List.mem_map.1 hw1
    intro hweq
    obtain ⟨q1, q2, q3⟩ := p
    obtain ⟨hv1, hv2, hv3, hv4, hv5, hv6⟩ := hv _ hp
    simp only at hv1 hv2 hv3 hv4 hv5 hv6
    rw [wrapT_of_nonneg hv1 hv3 hv5] at hwp
    simp only at hweq
    rw [← hwp] at hweq
    have e1 : q1.toNat = n := congrArg Prod.fst hweq
    have e2 : q2.toNat = r := congrArg (fun t => t.2.1) hweq
    have e3 : q3.toNat = c := congrArg (fun t => t.2.2) hweq
    apply hnot _ hp
    have g1 : q1 = (n : Int) := by omega
    have g2 : q2 = (r : Int) := by omega
    have g3 : q3 = (c : Int) := by omega
    rw [g1, g2, g3]

theorem scatterFill_getCell_lastWrite {sent : List al} {feats : List (List al)}
    {pos : List (Int × Int × Int)} {N G : Nat} {g : Grid al}
    (h : scatterFill sent feats pos N G = .ok g)
    (hr : ∀ p ∈ pos, inRange p N G) {i : Nat} (hi : i < pos.length)
    (hlast : ∀ j, (hj : j < pos.length) → i < j →
      wrapT N G pos[j] ≠ wrapT N G pos[i]) :
    getCell g (wrapT N G pos[i]).1 (wrapT N G pos[i]).2.1 (wrapT N G pos[i]).2.2
      = nthD feats i [] := by
  obtain ⟨hlen, idxs, hidx, hg⟩ := scatterFill_ok_inv h
  have hm : mapE (normTriple N G) pos = .ok (pos.map (wrapT N G)) :=
    mapE_eq_map (fun p hp => normTriple_ok_of_inRange (hr p hp))
  injection hidx.symm.trans hm with hidxs
  rw [hidxs] at hg
  have hzlen : ((pos.map (wrapT N G)).zip feats).length = pos.length := by
    simp [List.length_zip, hlen]
  have hiz : i < ((pos.map (wrapT N G)).zip feats).length := by omega
  have hifeats : i < feats.length := by omega
  have himap : i < (pos.map (wrapT N G)).length := by simpa using hi
  have hzi : ((pos.map (wrapT N G)).zip feats)[i]
      = (wrapT N G pos[i], nthD feats i []) := by
    rw [List.getElem_zip, List.getElem_map]
    rw [nthD_eq_getElem hifeats]
  have hdecomp : ((pos.map (wrapT N G)).zip feats)
      = ((pos.map (wrapT N G)).zip feats).take i
        ++ (wrapT N G pos[i], nthD feats i [])
          :: ((pos.map (wrapT N G)).zip feats).drop (i + 1) := by
    conv_lhs => rw [← List.take_append_drop i ((pos.map (wrapT N G)).zip feats)]
    rw [List.drop_eq_getElem_cons hiz, hzi]
  rw [hg, hdecomp]
  have hbounds := wrapT_lt (hr pos[i] (List.getElem_mem hi))
  refine getCell_applyWrites_last (mkGrid_gridDims N G sent) hbounds.1 hbounds.2.1
    hbounds.2.2 _ _ _ ?_
  rintro ⟨widx, wval⟩ hw
  obtain ⟨k, hk, hkw⟩ := List.mem_iff_getElem.1 hw
  rw [List.getElem_drop] at hkw
  have hk' : k < ((pos.map (wrapT N G)).zip feats).length - (i + 1) := by
    simpa using hk
  have hj : i + 1 + k < pos.length := by omega
  have hjz : i + 1 + k < ((pos.map (wrapT N G)).zip feats).length := by omega
  have hjf : i + 1 + k < feats.length := by omega
  have : ((pos.map (wrapT N G)).zip feats)[i + 1 + k]
      = (wrapT N G pos[i + 1 + k], nthD feats (i + 1 + k) []) := by
    rw [List.getElem_zip, List.getElem_map]
    rw [nthD_eq_getElem hjf]
  rw [this] at hkw
  have hwidx : widx = wrapT N G pos[i + 1 + k] := by
    have := congrArg Prod.fst hkw
    simpa using this.symm
  simp only [hwidx]
  exact hlast (i + 1 + k) hj (by omega)

/-! ### Casting, shapes, and the `execute1` level -/

theorem nthD_map_of_nil {ga de : Type} (F : ga → de) (l : List ga) (n : Nat)
    (dg : ga) (dd : de) (hF : F dg = dd) :
    nthD (l.map F) n dd = F (nthD l n dg) := by
  induction l generalizing n with
  | nil => exact hF.symm
  | cons x xs ih =>
    cases n with
    | zero => rfl
    | succ n => exact ih n

theorem getCell_castGrid (f : al → be) (g : Grid al) (n r c : Nat) :
    getCell (castGrid f g) n r c = (getCell g n r c).map f := by
  unfold castGrid getCell
  rw [nthD_map_of_nil (fun plane => plane.map fun row => row.map fun cell => cell.map f)
        g n [] [] rfl,
      nthD_map_of_nil (fun row => row.map fun cell => cell.map f)
        (nthD g n []) r [] [] rfl,
      nthD_map_of_nil (fun cell => cell.map f)
        (nthD (nthD g n []) r []) c [] [] rfl]

theorem setCell_gridShape {g : Grid al} {N G1 G2 F : Nat}
    (hg : gridShape g N G1 G2 F) (n' r' c' : Nat) {v : List al}
    (hv : v.length = F) : gridShape (setCell g n' r' c' v) N G1 G2 F := by
  obtain ⟨hdims, hcells⟩ := hg
  refine ⟨setCell_gridDims hdims n' r' c' v, ?_⟩
  intro n hn r hr c hc
  by_cases heq : n' = n ∧ r' = r ∧ c' = c
  · obtain ⟨e1, e2, e3⟩ := heq
    subst e1 e2 e3
    rw [getCell_setCell_eq v (by rw [hdims.1]; exact hn)
      (by rw [hdims.2.1 n' hn]; exact hr) (by rw [hdims.2.2 n' hn r' hr]; exact hc)]
    exact hv
  · rw [getCell_setCell_ne v heq]
    exact hcells n hn r hr c hc

theorem applyWrites_gridShape {N G1 G2 F : Nat}
    (ws : List ((Nat × Nat × Nat) × List al)) {g : Grid al}
    (hg : gridShape g N G1 G2 F) (hws : ∀ w ∈ ws, w.2.length = F) :
    gridShape (applyWrites g ws) N G1 G2 F := by
  induction ws generalizing g with
  | nil => exact hg
  | cons w ws ih =>
    exact ih (setCell_gridShape hg w.1.1 w.1.2.1 w.1.2.2
        (hws w (List.mem_cons_self w ws)))
      (fun w' hw' => hws w' (List.mem_cons_of_mem w hw'))

theorem mkGrid_gridShape {N G F : Nat} {sent : List al} (hs : sent.length = F) :
    gridShape (mkGrid N G sent : Grid al) N G G F := by
  refine ⟨mkGrid_gridDims N G sent, ?_⟩
  intro n hn r hr c hc
  rw [getCell_mkGrid hn hr hc]
  exact hs

theorem castGrid_gridShape {g : Grid al} {N G1 G2 F : Nat} (f : al → be)
    (hg : gridShape g N G1 G2 F) : gridShape (castGrid f g) N G1 G2 F := by
  obtain ⟨⟨d0, d1, d2⟩, hcells⟩ := hg
  refine ⟨⟨by simpa [castGrid] using d0, ?_, ?_⟩, ?_⟩
  · intro n hn
    rw [castGrid, nthD_map_of_nil
      (fun plane => plane.map fun row => row.map fun cell => cell.map f) g n [] [] rfl]
    simpa using d1 n hn
  · intro n hn r hr
    rw [castGrid, nthD_map_of_nil
      (fun plane => plane.map fun row => row.map fun cell => cell.map f) g n [] [] rfl,
      nthD_map_of_nil (fun row => row.map fun cell => cell.map f)
        (nthD g n []) r [] [] rfl]
    simpa using d2 n hn r hr
  · intro n hn r hr c hc
    rw [getCell_castGrid]
    simpa using hcells n hn r hr c hc

theorem execute1_ok_inv {cfg : Config al be} {req : Request al} {resp : Response be}
    (h : execute1 cfg req = .ok resp) :
    ∃ pin pout gi go,
      processFeatures req.in_inner_forconv = .ok pin ∧
      processFeatures req.in_outer_forconv = .ok pout ∧
      scatterFill pin.1 pin.2 req.in_inner_pos req.in_tau.length 11 = .ok gi ∧
      scatterFill pout.1 pout.2 req.in_outer_pos req.in_tau.length 21 = .ok go ∧
      resp = ⟨req.in_tau.map cfg.output_tau_dtype,
        castGrid cfg.output_inner_dtype gi, castGrid cfg.output_outer_dtype go⟩ := by
  rw [execute1] at h
  split at h
  · cases h
  · rename_i pin h1
    split at h
    · cases h
    · rename_i pout h2
      split at h
      · cases h
      · rename_i gi h3
        split at h
        · cases h
        · rename_i go h4
          cases h
          exact ⟨pin, pout, gi, go, h1, h2, h3, h4, rfl⟩

theorem execute1_ok_of {cfg : Config al be} {req : Request al}
    {pin pout : List al × List (List al)} {gi go : Grid al}
    (h1 : processFeatures req.in_inner_forconv = .ok pin)
    (h2 : processFeatures req.in_outer_forconv = .ok pout)
    (h3 : scatterFill pin.1 pin.2 req.in_inner_pos req.in_tau.length 11 = .ok gi)
    (h4 : scatterFill pout.1 pout.2 req.in_outer_pos req.in_tau.length 21 = .ok go) :
    execute1 cfg req = .ok ⟨req.in_tau.map cfg.output_tau_dtype,
      castGrid cfg.output_inner_dtype gi, castGrid cfg.output_outer_dtype go⟩ := by
  simp only [execute1, h1, h2, h3, h4]

theorem normTriple_error_of_ge {p : Int × Int × Int} {N G : Nat}
    (h : (N : Int) ≤ p.1 ∨ (G : Int) ≤ p.2.1 ∨ (G : Int) ≤ p.2.2) :
    ∃ e, normTriple N G p = .error e := by
  rcases h with h | h | h
  · have h1 : normIdx p.1 N = .error "IndexError: index is out of bounds" := by
      rw [normIdx, if_neg (by omega), if_neg (by omega)]
    exact ⟨"IndexError: index is out of bounds", by simp only [normTriple, h1]⟩
  · cases h1 : normIdx p.1 N with
    | error e => exact ⟨e, by simp only [normTriple, h1]⟩
    | ok n =>
      have h2 : normIdx p.2.1 G = .error "IndexError: index is out of bounds" := by
        rw [normIdx, if_neg (by omega), if_neg (by omega)]
      exact ⟨"IndexError: index is out of bounds", by simp only [normTriple, h1, h2]⟩
  · cases h1 : normIdx p.1 N with
    | error e => exact ⟨e, by simp only [normTriple, h1]⟩
    | ok n =>
      cases h2 : normIdx p.2.1 G with
      | error e => exact ⟨e, by simp only [normTriple, h1, h2]⟩
      | ok r =>
        have h3 : normIdx p.2.2 G = .error "IndexError: index is out of bounds" := by
          rw [normIdx, if_neg (by omega), if_neg (by omega)]
        exact ⟨"IndexError: index is out of bounds",
          by simp only [normTriple, h1, h2, h3]⟩

theorem scatterFill_error_of_badIdx (sent : List al) (feats : List (List al))
    {pos : List (Int × Int × Int)} {N G : Nat} {p : Int × Int × Int}
    (hp : p ∈ pos)
    (hbad : (N : Int) ≤ p.1 ∨ (G : Int) ≤ p.2.1 ∨ (G : Int) ≤ p.2.2) :
    ∃ e, scatterFill sent feats pos N G = .error e := by
  by_cases hlen : feats.length = pos.length
  · obtain ⟨e, he⟩ := mapE_error_of_mem hp (normTriple_error_of_ge hbad)
    exact ⟨e, by simp only [scatterFill, if_pos hlen, he]⟩
  · exact ⟨"ValueError: shape mismatch between index result and assigned values",
      by simp only [scatterFill, if_neg hlen]⟩

theorem execute1_error_of_badIdx {cfg : Config al be} {req : Request al}
    (hbad : (∃ p ∈ req.in_inner_pos, ((req.in_tau.length : Int) ≤ p.1
          ∨ (11 : Int) ≤ p.2.1 ∨ (11 : Int) ≤ p.2.2))
      ∨ (∃ p ∈ req.in_outer_pos, ((req.in_tau.length : Int) ≤ p.1
          ∨ (21 : Int) ≤ p.2.1 ∨ (21 : Int) ≤ p.2.2))) :
    ∃ e, execute1 cfg req = .error e := by
  cases h1 : processFeatures req.in_inner_forconv with
  | error e => exact ⟨e, by simp only [execute1, h1]⟩
  | ok pin =>
    cases h2 : processFeatures req.in_outer_forconv with
    | error e => exact ⟨e, by simp only [execute1, h1, h2]⟩
    | ok pout =>
      rcases hbad with ⟨p, hp, hb⟩ | ⟨p, hp, hb⟩
      · obtain ⟨e, he⟩ := scatterFill_error_of_badIdx pin.1 pin.2 hp hb
        exact ⟨e, by simp only [execute1, h1, h2, he]⟩
      · cases h3 : scatterFill pin.1 pin.2 req.in_inner_pos req.in_tau.length 11 with
        | error e => exact ⟨e, by simp only [execute1, h1, h2, h3]⟩
        | ok gi =>
          obtain ⟨e, he⟩ := scatterFill_error_of_badIdx pout.1 pout.2 hp hb
          exact ⟨e, by simp only [execute1, h1, h2, h3, he]⟩

theorem execute1_ok_shapes {cfg : Config al be} {req : Request al}
    {resp : Response be} (h : execute1 cfg req = .ok resp) :
    resp.output_tau.length = req.in_tau.length ∧
      gridShape resp.output_inner req.in_tau.length 11 11
        (featDim req.in_inner_forconv) ∧
      gridShape resp.output_outer req.in_tau.length 21 21
        (featDim req.in_outer_forconv) := by
  obtain ⟨pin, pout, gi, go, h1, h2, h3, h4, hresp⟩ := execute1_ok_inv h
  obtain ⟨Mi, Fi, _, _, hsentI, hfeatsIlen, hrowsI, hdimI⟩ :=
    processFeatures_ok_facts (show processFeatures req.in_inner_forconv
      = .ok (pin.1, pin.2) from h1)
  obtain ⟨Mo, Fo, _, _, hsentO, hfeatsOlen, hrowsO, hdimO⟩ :=
    processFeatures_ok_facts (show processFeatures req.in_outer_forconv
      = .ok (pout.1, pout.2) from h2)
  obtain ⟨hlenI, idxsI, hidxI, hgi⟩ := scatterFill_ok_inv h3
  obtain ⟨hlenO, idxsO, hidxO, hgo⟩ := scatterFill_ok_inv h4
  subst hresp
  refine ⟨by simp, ?_, ?_⟩
  · rw [hdimI, hgi]
    refine castGrid_gridShape _ (applyWrites_gridShape _ (mkGrid_gridShape hsentI) ?_)
    rintro ⟨widx, wval⟩ hw
    exact hrowsI wval (List.of_mem_zip hw).2
  · rw [hdimO, hgo]
    refine castGrid_gridShape _ (applyWrites_gridShape _ (mkGrid_gridShape hsentO) ?_)
    rintro ⟨widx, wval⟩ hw
    exact hrowsO wval (List.of_mem_zip hw).2

theorem mapE_singleton {f : al → Except String be} {x : al} {y : be}
    (h : f x = .ok y) : mapE f [x] = .ok [y] := by
  simp only [mapE, h]

theorem scatterFill_getCell_validNth {sent : List al} {feats : List (List al)}
    {pos : List (Int × Int × Int)} {N G : Nat} {g : Grid al}
    (h : scatterFill sent feats pos N G = .ok g) (hv : validPos pos N G)
    {i : Nat} (hi : i < pos.length)
    (hlast : ∀ j, (hj : j < pos.length) → i < j → pos[j] ≠ pos[i]) :
    getCell g pos[i].1.toNat pos[i].2.1.toNat pos[i].2.2.toNat
      = nthD feats i [] := by
  have hr : ∀ p ∈ pos, inRange p N G := fun p hp => inRange_of_validPos hv hp
  have hvi := hv _ (List.getElem_mem hi)
  have hw := scatterFill_getCell_lastWrite h hr hi ?hlast'
  case hlast' =>
    intro j hj hij heq
    have hvj := hv _ (List.getElem_mem hj)
    exact hlast j hj hij (wrapT_inj_of_nonneg hvj.1 hvj.2.2.1 hvj.2.2.2.2.1
      hvi.1 hvi.2.2.1 hvi.2.2.2.2.1 heq)
  rw [wrapT_of_nonneg hvi.1 hvi.2.2.1 hvi.2.2.2.2.1] at hw
  exact hw

/-! ### The claims -/

/-- Claim C1: for a valid request (index arrays within the input
contract's non-negative bounds) that `execute` processes successfully,
every cell of the inner grid whose coordinates appear in no entry of the
inner index array holds exactly the sentinel feature vector — the last
row of the inner feature batch — after the cast to the declared output
datatype, and likewise for the outer grid and its index array. -/
theorem claim_C1 (cfg : Config al be) (req : Request al) (resp : Response be)
    (sentI : List al) (featsI : List (List al)) (sentO : List al)
    (featsO : List (List al))
    (hok : execute1 cfg req = .ok resp)
    (hpi : processFeatures req.in_inner_forconv = .ok (sentI, featsI))
    (hpo : processFeatures req.in_outer_forconv = .ok (sentO, featsO))
    (hvi : validPos req.in_inner_pos req.in_tau.length 11)
    (hvo : validPos req.in_outer_pos req.in_tau.length 21)
    (n r c : Nat) (hn : n < req.in_tau.length) :
    (r < 11 → c < 11 →
      (∀ p ∈ req.in_inner_pos, p ≠ ((n : Int), (r : Int), (c : Int))) →
      getCell resp.output_inner n r c = sentI.map cfg.output_inner_dtype) ∧
    (r < 21 → c < 21 →
      (∀ p ∈ req.in_outer_pos, p ≠ ((n : Int), (r : Int), (c : Int))) →
      getCell resp.output_outer n r c = sentO.map cfg.output_outer_dtype) := by
  obtain ⟨pin, pout, gi, go, h1, h2, h3, h4, hresp⟩ := execute1_ok_inv hok
  injection hpi.symm.trans h1 with hpin
  injection hpo.symm.trans h2 with hpout
  subst hpin hpout hresp
  constructor
  · intro hr hc hnot
    show getCell (castGrid cfg.output_inner_dtype gi) n r c = _
    rw [getCell_castGrid, scatterFill_getCell_sentinel h3 hvi hn hr hc hnot]
  · intro hr hc hnot
    show getCell (castGrid cfg.output_outer_dtype go) n r c = _
    rw [getCell_castGrid, scatterFill_getCell_sentinel h4 hvo hn hr hc hnot]

/-- Witness for C1: the spec's section-8 scenario `reqW1`. The cell
`(0, 0, 0)` of the inner grid, absent from the index array, holds the
cast inner sentinel `[9, 9]`, and cell `(0, 20, 20)` of the outer grid
holds the cast outer sentinel `[5]`. -/
theorem claim_C1_witness :
    execute1 cfgW reqW1 = Except.ok respW1 ∧
    getCell respW1.output_inner 0 0 0
      = ([9, 9] : List Int).map cfgW.output_inner_dtype ∧
    getCell respW1.output_outer 0 20 20
      = ([5] : List Int).map cfgW.output_outer_dtype :=
  ⟨rfl,
   (claim_C1 cfgW reqW1 respW1 [9, 9] [[1, 2]] [5] [] rfl rfl rfl (by decide)
      (by decide) 0 0 0 (by decide)).1 (by decide) (by decide) (by decide),
   (claim_C1 cfgW reqW1 respW1 [9, 9] [[1, 2]] [5] [] rfl rfl rfl (by decide)
      (by decide) 0 20 20 (by decide)).2 (by decide) (by decide) (by decide)⟩

/-- Claim C2: when the entries of an index array are pairwise distinct,
the grid cell addressed by its i-th entry holds exactly the i-th
non-sentinel feature row, after the cast to the declared output
datatype — for the inner and for the outer grid. -/
theorem claim_C2 (cfg : Config al be) (req : Request al) (resp : Response be)
    (sentI : List al) (featsI : List (List al)) (sentO : List al)
    (featsO : List (List al))
    (hok : execute1 cfg req = .ok resp)
    (hpi : processFeatures req.in_inner_forconv = .ok (sentI, featsI))
    (hpo : processFeatures req.in_outer_forconv = .ok (sentO, featsO))
    (hvi : validPos req.in_inner_pos req.in_tau.length 11)
    (hvo : validPos req.in_outer_pos req.in_tau.length 21)
    (hdi : req.in_inner_pos.Pairwise (· ≠ ·))
    (hdo : req.in_outer_pos.Pairwise (· ≠ ·)) (i : Nat) :
    (∀ hi : i < req.in_inner_pos.length,
      getCell resp.output_inner req.in_inner_pos[i].1.toNat
          req.in_inner_pos[i].2.1.toNat req.in_inner_pos[i].2.2.toNat
        = (nthD featsI i []).map cfg.output_inner_dtype) ∧
    (∀ hi : i < req.in_outer_pos.length,
      getCell resp.output_outer req.in_outer_pos[i].1.toNat
          req.in_outer_pos[i].2.1.toNat req.in_outer_pos[i].2.2.toNat
        = (nthD featsO i []).map cfg.output_outer_dtype) := by
  obtain ⟨pin, pout, gi, go, h1, h2, h3, h4, hresp⟩ := execute1_ok_inv hok
  injection hpi.symm.trans h1 with hpin
  injection hpo.symm.trans h2 with hpout
  subst hpin hpout hresp
  constructor
  · intro hi
    show getCell (castGrid cfg.output_inner_dtype gi) _ _ _ = _
    rw [getCell_castGrid, scatterFill_getCell_validNth h3 hvi hi ?hli]
    case hli =>
      intro j hj hij
      exact (List.pairwise_iff_getElem.1 hdi i j hi hj hij).symm
  · intro hi
    show getCell (castGrid cfg.output_outer_dtype go) _ _ _ = _
    rw [getCell_castGrid, scatterFill_getCell_validNth h4 hvo hi ?hlo]
    case hlo =>
      intro j hj hij
      exact (List.pairwise_iff_getElem.1 hdo i j hi hj hij).symm

/-- Witness for C2: in `reqW1` the single inner index entry `(0, 3, 4)`
addresses a cell that ends up holding the cast feature row `[1, 2]`. -/
theorem claim_C2_witness :
    execute1 cfgW reqW1 = Except.ok respW1 ∧
    getCell respW1.output_inner 0 3 4
      = ([1, 2] : List Int).map cfgW.output_inner_dtype :=
  ⟨rfl,
   (claim_C2 cfgW reqW1 respW1 [9, 9] [[1, 2]] [5] [] rfl rfl rfl (by decide)
      (by decide) (by decide) (by decide) 0).1 (by decide)⟩

/-- Claim C3: with a valid index array, the cell addressed by entry `i`
holds the cast feature row `i` whenever no later entry addresses the
same cell — last write wins, no aggregation — for the inner and for the
outer grid. The witness instantiates the spec's duplicate scenario: two
entries at `(0, 0, 0)` with rows `[1, 1]` then `[2, 2]` leave `[2, 2]`. -/
theorem claim_C3 (cfg : Config al be) (req : Request al) (resp : Response be)
    (sentI : List al) (featsI : List (List al)) (sentO : List al)
    (featsO : List (List al))
    (hok : execute1 cfg req = .ok resp)
    (hpi : processFeatures req.in_inner_forconv = .ok (sentI, featsI))
    (hpo : processFeatures req.in_outer_forconv = .ok (sentO, featsO))
    (hvi : validPos req.in_inner_pos req.in_tau.length 11)
    (hvo : validPos req.in_outer_pos req.in_tau.length 21) :
    (∀ (i : Nat) (hi : i < req.in_inner_pos.length),
      (∀ j, (hj : j < req.in_inner_pos.length) → i < j →
        req.in_inner_pos[j] ≠ req.in_inner_pos[i]) →
      getCell resp.output_inner req.in_inner_pos[i].1.toNat
          req.in_inner_pos[i].2.1.toNat req.in_inner_pos[i].2.2.toNat
        = (nthD featsI i []).map cfg.output_inner_dtype) ∧
    (∀ (i : Nat) (hi : i < req.in_outer_pos.length),
      (∀ j, (hj : j < req.in_outer_pos.length) → i < j →
        req.in_outer_pos[j] ≠ req.in_outer_pos[i]) →
      getCell resp.output_outer req.in_outer_pos[i].1.toNat
          req.in_outer_pos[i].2.1.toNat req.in_outer_pos[i].2.2.toNat
        = (nthD featsO i []).map cfg.output_outer_dtype) := by
  obtain ⟨pin, pout, gi, go, h1, h2, h3, h4, hresp⟩ := execute1_ok_inv hok
  injection hpi.symm.trans h1 with hpin
  injection hpo.symm.trans h2 with hpout
  subst hpin hpout hresp
  constructor
  · intro i hi hlast
    show getCell (castGrid cfg.output_inner_dtype gi) _ _ _ = _
    rw [getCell_castGrid, scatterFill_getCell_validNth h3 hvi hi hlast]
  · intro i hi hlast
    show getCell (castGrid cfg.output_outer_dtype go) _ _ _ = _
    rw [getCell_castGrid, scatterFill_getCell_validNth h4 hvo hi hlast]

/-- Witness for C3: the spec's duplicate-index scenario `reqW3` — two
entries at `(0, 0, 0)` with feature rows `[1, 1]` then `[2, 2]`; the
final cell value is the cast of `[2, 2]`, the later row. -/
theorem claim_C3_witness :
    execute1 cfgW reqW3 = Except.ok respW3 ∧
    getCell respW3.output_inner 0 0 0
      = ([2, 2] : List Int).map cfgW.output_inner_dtype :=
  ⟨rfl,
   (claim_C3 cfgW reqW3 respW3 [9, 9] [[1, 1], [2, 2]] [5] [] rfl rfl rfl
      (by decide) (by decide)).1 1 (by decide)
     (by
       intro j hj hij
       have hj2 : j < 2 := by simpa [reqW3] using hj
       exact absurd hij (by omega))⟩

/-- Claim C4: the `output_tau` tensor of a successfully processed
request is exactly the `input_tau` array mapped elementwise through the
declared output datatype cast, in the same order. -/
theorem claim_C4 (cfg : Config al be) (req : Request al) (resp : Response be)
    (hok : execute1 cfg req = .ok resp) :
    resp.output_tau = req.in_tau.map cfg.output_tau_dtype := by
  obtain ⟨pin, pout, gi, go, h1, h2, h3, h4, hresp⟩ := execute1_ok_inv hok
  rw [hresp]

/-- Witness for C4: `reqW1`'s single score `7` comes back as the cast
value `8`. -/
theorem claim_C4_witness :
    execute1 cfgW reqW1 = Except.ok respW1 ∧
    respW1.output_tau = ([7] : List Int).map cfgW.output_tau_dtype :=
  ⟨rfl, claim_C4 cfgW reqW1 respW1 rfl⟩

/-- Claim C5: a successfully processed batch yields exactly one response
per request, in request order, and the i-th response carries a score of
length `N`, an inner grid of shape `N x 11 x 11 x F_in` and an outer
grid of shape `N x 21 x 21 x F_out`, where `N` is the i-th request's
object count (the length of its `input_tau`) and `F_in`, `F_out` are the
last-axis sizes of its feature inputs. -/
theorem claim_C5 (cfg : Config al be) (reqs : List (Request al))
    (resps : List (Response be)) (hok : execute cfg reqs = .ok resps) :
    resps.length = reqs.length ∧
    ∀ i, (hi : i < resps.length) → (hi' : i < reqs.length) →
      resps[i].output_tau.length = reqs[i].in_tau.length ∧
      gridShape resps[i].output_inner reqs[i].in_tau.length 11 11
        (featDim reqs[i].in_inner_forconv) ∧
      gridShape resps[i].output_outer reqs[i].in_tau.length 21 21
        (featDim reqs[i].in_outer_forconv) := by
  refine ⟨mapE_ok_length hok, ?_⟩
  intro i hi hi'
  exact execute1_ok_shapes (mapE_ok_get hok hi' hi)

/-- Witness for C5: a two-request batch producing two responses whose
first response's score length matches the first request's object
count. -/
theorem claim_C5_witness :
    execute cfgW reqsW = Except.ok respsW ∧ respsW.length = reqsW.length ∧
    respW1.output_tau.length = reqW1.in_tau.length :=
  ⟨rfl, (claim_C5 cfgW reqsW respsW rfl).1,
   ((claim_C5 cfgW reqsW respsW rfl).2 0 (by decide) (by decide)).1⟩

/-- Claim C6 counterexample: on a request whose feature inputs are 2-D
arrays of shape `(M+1) x F` — the literal shapes of the spec's input
contract — `execute` raises (`np.squeeze(a, axis=2)` on a 2-D array is
an `AxisError`) instead of processing the request. -/
theorem claim_C6_counterexample :
    execute1 cfgW reqW6bad
      = Except.error "AxisError: axis 2 is out of bounds for array of dimension 2" := rfl

/-- Claim C6 (amended): for a request whose feature inputs are 4-D
arrays of shape `(M+1) x 1 x 1 x F` — the wire shapes, which squeeze to
the contract's `(M+1) x F` — with index arrays of matching length `M`
and in-range coordinates, `execute` processes the request without
raising, extracting the last row of each squeezed feature batch as the
sentinel and the preceding `M` rows as the per-window features. -/
theorem claim_C6_amended (cfg : Config al be) (req : Request al)
    (Mi Fi Mo Fo : Nat)
    (hsi : req.in_inner_forconv.shape = [Mi + 1, 1, 1, Fi])
    (hdi : req.in_inner_forconv.data.length = (Mi + 1) * Fi)
    (hso : req.in_outer_forconv.shape = [Mo + 1, 1, 1, Fo])
    (hdo : req.in_outer_forconv.data.length = (Mo + 1) * Fo)
    (hleni : req.in_inner_pos.length = Mi)
    (hleno : req.in_outer_pos.length = Mo)
    (hri : ∀ p ∈ req.in_inner_pos, inRange p req.in_tau.length 11)
    (hro : ∀ p ∈ req.in_outer_pos, inRange p req.in_tau.length 21) :
    (∃ resp, execute1 cfg req = .ok resp) ∧
    processFeatures req.in_inner_forconv
      = .ok ((req.in_inner_forconv.data.drop (Mi * Fi)).take Fi,
          chunkRows Mi Fi req.in_inner_forconv.data) ∧
    processFeatures req.in_outer_forconv
      = .ok ((req.in_outer_forconv.data.drop (Mo * Fo)).take Fo,
          chunkRows Mo Fo req.in_outer_forconv.data) := by
  have hpi := processFeatures_eq hsi hdi
  have hpo := processFeatures_eq hso hdo
  have hfli : (chunkRows Mi Fi req.in_inner_forconv.data).length
      = req.in_inner_pos.length := by rw [chunkRows_length, hleni]
  have hflo : (chunkRows Mo Fo req.in_outer_forconv.data).length
      = req.in_outer_pos.length := by rw [chunkRows_length, hleno]
  exact ⟨⟨_, execute1_ok_of hpi hpo
      (scatterFill_ok_of _ _ _ _ _ hfli hri) (scatterFill_ok_of _ _ _ _ _ hflo hro)⟩,
    hpi, hpo⟩

/-- Witness for the amended C6: `reqW1` has the 4-D wire shapes; its
inner input splits into sentinel `[9, 9]` and features `[[1, 2]]`, and
the request is processed without raising. -/
theorem claim_C6_witness :
    reqW1.in_inner_forconv.shape = [1 + 1, 1, 1, 2] ∧
    (∃ resp, execute1 cfgW reqW1 = Except.ok resp) ∧
    processFeatures reqW1.in_inner_forconv
      = Except.ok ((reqW1.in_inner_forconv.data.drop (1 * 2)).take 2,
          chunkRows 1 2 reqW1.in_inner_forconv.data) := by
  obtain ⟨hex, hpi, hpo⟩ := claim_C6_amended cfgW reqW1 1 2 0 1 rfl rfl rfl rfl
    (by decide) (by decide) (by decide) (by decide)
  exact ⟨rfl, hex, hpi⟩

/-- Claim C7: if any request in a batch has an index entry with a
coordinate at or beyond its bound (`n >= N`, or row/col `>= 11` for the
inner grid, `>= 21` for the outer grid), `execute` raises an uncaught
error and returns no responses at all — the error result carries no
response for any request of the batch, including earlier ones. -/
theorem claim_C7 (cfg : Config al be) (reqs : List (Request al)) (i : Nat)
    (hi : i < reqs.length)
    (hbad : (∃ p ∈ reqs[i].in_inner_pos, ((reqs[i].in_tau.length : Int) ≤ p.1
          ∨ (11 : Int) ≤ p.2.1 ∨ (11 : Int) ≤ p.2.2))
      ∨ (∃ p ∈ reqs[i].in_outer_pos, ((reqs[i].in_tau.length : Int) ≤ p.1
          ∨ (21 : Int) ≤ p.2.1 ∨ (21 : Int) ≤ p.2.2))) :
    ∃ e, execute cfg reqs = .error e :=
  mapE_error_of_mem (List.getElem_mem hi) (execute1_error_of_badIdx hbad)

/-- Witness for C7: a batch whose first request is fully valid and
whose second has the out-of-range inner row coordinate `11`; the whole
call errors, returning no responses. -/
theorem claim_C7_witness :
    (∃ p ∈ reqW7.in_inner_pos, ((reqW7.in_tau.length : Int) ≤ p.1
      ∨ (11 : Int) ≤ p.2.1 ∨ (11 : Int) ≤ p.2.2)) ∧
    ∃ e, execute cfgW [reqW1, reqW7] = Except.error e :=
  ⟨by decide, claim_C7 cfgW [reqW1, reqW7] 1 (by decide) (Or.inl (by decide))⟩

/-- Claim C8: negative index coordinates in `[-bound, 0)` raise no
error — the request is processed successfully — and the corresponding
feature row is written to the cell at offset `bound + c` on that axis,
i.e. negative coordinates wrap to the far end (`wrapT` resolves each
coordinate to `bound + c` when `c < 0`). As in C3, the written value is
observed at entries not overwritten later. -/
theorem claim_C8 (cfg : Config al be) (req : Request al)
    (sentI : List al) (featsI : List (List al)) (sentO : List al)
    (featsO : List (List al))
    (hpi : processFeatures req.in_inner_forconv = .ok (sentI, featsI))
    (hpo : processFeatures req.in_outer_forconv = .ok (sentO, featsO))
    (hleni : featsI.length = req.in_inner_pos.length)
    (hleno : featsO.length = req.in_outer_pos.length)
    (hri : ∀ p ∈ req.in_inner_pos, inRange p req.in_tau.length 11)
    (hro : ∀ p ∈ req.in_outer_pos, inRange p req.in_tau.length 21) :
    ∃ resp, execute1 cfg req = .ok resp ∧
      (∀ (i : Nat) (hi : i < req.in_inner_pos.length),
        (∀ j, (hj : j < req.in_inner_pos.length) → i < j →
          wrapT req.in_tau.length 11 req.in_inner_pos[j]
            ≠ wrapT req.in_tau.length 11 req.in_inner_pos[i]) →
        getCell resp.output_inner
            (wrapT req.in_tau.length 11 req.in_inner_pos[i]).1
            (wrapT req.in_tau.length 11 req.in_inner_pos[i]).2.1
            (wrapT req.in_tau.length 11 req.in_inner_pos[i]).2.2
          = (nthD featsI i []).map cfg.output_inner_dtype) ∧
      (∀ (i : Nat) (hi : i < req.in_outer_pos.length),
        (∀ j, (hj : j < req.in_outer_pos.length) → i < j →
          wrapT req.in_tau.length 21 req.in_outer_pos[j]
            ≠ wrapT req.in_tau.length 21 req.in_outer_pos[i]) →
        getCell resp.output_outer
            (wrapT req.in_tau.length 21 req.in_outer_pos[i]).1
            (wrapT req.in_tau.length 21 req.in_outer_pos[i]).2.1
            (wrapT req.in_tau.length 21 req.in_outer_pos[i]).2.2
          = (nthD featsO i []).map cfg.output_outer_dtype) := by
  have h3 := scatterFill_ok_of sentI featsI req.in_inner_pos req.in_tau.length 11
    hleni hri
  have h4 := scatterFill_ok_of sentO featsO req.in_outer_pos req.in_tau.length 21
    hleno hro
  refine ⟨_, execute1_ok_of hpi hpo h3 h4, ?_, ?_⟩
  · intro i hi hlast
    show getCell (castGrid cfg.output_inner_dtype _) _ _ _ = _
    rw [getCell_castGrid, scatterFill_getCell_lastWrite h3 hri hi hlast]
  · intro i hi hlast
    show getCell (castGrid cfg.output_outer_dtype _) _ _ _ = _
    rw [getCell_castGrid, scatterFill_getCell_lastWrite h4 hro hi hlast]

/-- Witness for C8: `reqW8` has the negative inner entry `(-1, -3, 4)`
with `N = 1` and the negative outer entry `(0, -21, 20)`; no error is
raised and the rows land at the wrapped cells `(0, 8, 4)` and
`(0, 0, 20)`. -/
theorem claim_C8_witness :
    (∀ p ∈ reqW8.in_inner_pos, inRange p reqW8.in_tau.length 11) ∧
    (∀ p ∈ reqW8.in_outer_pos, inRange p reqW8.in_tau.length 21) ∧
    ∃ resp, execute1 cfgW reqW8 = Except.ok resp ∧
      getCell resp.output_inner 0 8 4
        = ([1, 2] : List Int).map cfgW.output_inner_dtype ∧
      getCell resp.output_outer 0 0 20
        = ([4] : List Int).map cfgW.output_outer_dtype := by
  refine ⟨by decide, by decide, ?_⟩
  obtain ⟨resp, hok, hin, hout⟩ := claim_C8 cfgW reqW8 [9, 9] [[1, 2]] [5] [[4]]
    rfl rfl rfl rfl (by decide) (by decide)
  refine ⟨resp, hok, ?_, ?_⟩
  · exact hin 0 (by decide) (by
      intro j hj hij
      have hj1 : j < 1 := by simpa [reqW8] using hj
      exact absurd hij (by omega))
  · exact hout 0 (by decide) (by
      intro j hj hij
      have hj1 : j < 1 := by simpa [reqW8] using hj
      exact absurd hij (by omega))

/-- Claim C9: the `execute` method reads but never writes the state
cached at model load; with that state threaded explicitly, the state
after a call equals the state before it, and a second call on the same
inputs returns the same outputs bit for bit. In this embedding the
method body is a function of the cached casts and the requests, so both
facts hold definitionally — exactly the purity the claim asserts. -/
theorem claim_C9 (s : Config al be) (reqs : List (Request al)) :
    (executeS s reqs).1 = s ∧
    (executeS (executeS s reqs).1 reqs).2 = (executeS s reqs).2 :=
  ⟨rfl, rfl⟩

/-- Claim C10: a successfully processed batch equals the concatenation
of singleton runs — the i-th response of the batched call is exactly
the single response obtained by executing the i-th request alone under
the same configuration, so responses depend only on their own request
and the load-time configuration. -/
theorem claim_C10 (cfg : Config al be) (reqs : List (Request al))
    (resps : List (Response be)) (hok : execute cfg reqs = .ok resps) :
    resps.length = reqs.length ∧
    ∀ i, (hi : i < reqs.length) → (hi' : i < resps.length) →
      execute cfg [reqs[i]] = .ok [resps[i]] := by
  refine ⟨mapE_ok_length hok, ?_⟩
  intro i hi hi'
  exact mapE_singleton (mapE_ok_get hok hi hi')

/-- Witness for C10: the two-request batch `reqsW`; running its second
request alone yields exactly the second batched response. -/
theorem claim_C10_witness :
    execute cfgW reqsW = Except.ok respsW ∧
    execute cfgW [reqW10] = Except.ok [respW10] :=
  ⟨rfl, (claim_C10 cfgW reqsW respsW rfl).2 1 (by decide) (by decide)⟩

end DeepTau
